import Mathlib

/-!
Shallow embedding of the FundingArbitrageDashboard frontend
(`src/frontend/src/components/FundingArbitrageDashboard.js` and
`src/frontend/src/lib/utils.js`).

JS numbers are modelled as rationals (`ℚ`); all threshold constants in the
source (0.0005, 0.0001, 1e9, …) are exactly representable.  Strings are Lean
`String`s; decimal rendering follows the ECMAScript `Number.prototype.toFixed`
algorithm (sign split off, magnitude scaled by `10^d`, rounded to the nearest
integer with ties taken upward).  JS truthiness of the values that the source
branches on (`null`/`undefined` falsy, `""` falsy, every array — including the
empty array — truthy) is modelled explicitly at each use site.
-/

namespace FundingDashboard

/-- One decimal digit as a character (used only with arguments `< 10`). -/
def digitChar : ℕ → Char
  | 0 => '0' | 1 => '1' | 2 => '2' | 3 => '3' | 4 => '4'
  | 5 => '5' | 6 => '6' | 7 => '7' | 8 => '8' | _ => '9'

/-- The ten decimal digit characters. -/
def decimalDigits : List Char := ['0', '1', '2', '3', '4', '5', '6', '7', '8', '9']

/-- Base-10 rendering, structurally recursive on a fuel bound so that it
reduces inside the kernel; `natDigits` supplies sufficient fuel. -/
def natDigitsAux : ℕ → ℕ → List Char
  | _, 0 => []
  | n, fuel + 1 =>
      if n < 10 then [digitChar n]
      else natDigitsAux (n / 10) fuel ++ [digitChar (n % 10)]

/-- Base-10 rendering of a natural number (`0` renders as `"0"`). -/
def natDigits (n : ℕ) : List Char := natDigitsAux n (n + 1)

/-- Left-pad a digit string with zeros to width `d`. -/
def padZeros (d : ℕ) (l : List Char) : List Char :=
  List.replicate (d - l.length) '0' ++ l

/-- Render the nonnegative integer `n` as a fixed-point decimal with `d`
fractional digits, `n` being the value scaled by `10^d`. -/
def fixedDigits (n d : ℕ) : List Char :=
  if d = 0 then natDigits n
  else natDigits (n / 10 ^ d) ++ '.' :: padZeros d (natDigits (n % 10 ^ d))

/-- Round a nonnegative rational to the nearest natural number, ties upward —
the rounding ECMAScript `toFixed` applies to the scaled magnitude. -/
def roundHalfUp (x : ℚ) : ℕ := (⌊x + 1 / 2⌋).toNat

/-- Character list produced by ECMAScript `x.toFixed(d)`: a `'-'` sign when
`x < 0`, then the magnitude scaled by `10^d`, rounded, in fixed notation. -/
def toFixedL (q : ℚ) (d : ℕ) : List Char :=
  (if q < 0 then ['-'] else []) ++ fixedDigits (roundHalfUp (|q| * 10 ^ d)) d

/-- ECMAScript `x.toFixed(d)` as a Lean `String`. -/
def toFixed (q : ℚ) (d : ℕ) : String := ⟨toFixedL q d⟩

/-- `formatNumber` from `src/frontend/src/lib/utils.js` (JS default
`decimals = 2`): suffix "B"/"M"/"K" for magnitudes ≥ 1e9 / 1e6 / 1e3. -/
def formatNumber (num : ℚ) (decimals : ℕ) : String :=
  if num ≥ 1000000000 then toFixed (num / 1000000000) decimals ++ "B"
  else if num ≥ 1000000 then toFixed (num / 1000000) decimals ++ "M"
  else if num ≥ 1000 then toFixed (num / 1000) decimals ++ "K"
  else toFixed num decimals

/-- `formatPercent` from `src/frontend/src/lib/utils.js` (JS default
`decimals = 4`): `(num * 100).toFixed(decimals) + "%"`. -/
def formatPercent (num : ℚ) (decimals : ℕ) : String :=
  toFixed (num * 100) decimals ++ "%"

/-- `getFundingBadgeVariant` from the dashboard component. -/
def getFundingBadgeVariant (fundingRate : ℚ) : String :=
  if fundingRate > 0.0005 then "success"
  else if fundingRate > 0.0001 then "warning"
  else if fundingRate < -0.0001 then "destructive"
  else "secondary"

/-- `getPriceChangeBadgeVariant` from the dashboard component. -/
def getPriceChangeBadgeVariant (priceChange : ℚ) : String :=
  if priceChange > 5 then "success"
  else if priceChange > 0 then "warning"
  else if priceChange < -5 then "destructive"
  else "secondary"

/-- The text of the 24h-change table cell:
`{market.price_change_24h > 0 ? '+' : ''}{market.price_change_24h.toFixed(2)}%`. -/
def priceChangeCellText (priceChange : ℚ) : String :=
  (if priceChange > 0 then "+" else "") ++ toFixed priceChange 2 ++ "%"

/-- The spec's `fundingBadgeSeverity` ladder, written from §4.3 of the spec:
`rate > 0.0005 → "success"`; else `rate > 0.0001 → "warning"`; else
`rate < -0.0001 → "destructive"`; else `"secondary"`. -/
def fundingBadgeSeverity (rate : ℚ) : String :=
  if rate > 0.0005 then "success"
  else if rate > 0.0001 then "warning"
  else if rate < -0.0001 then "destructive"
  else "secondary"

/-- The spec's `priceChangeBadgeSeverity` ladder, written from §4.3 of the
spec: `pct > 5 → "success"`; else `pct > 0 → "warning"`; else
`pct < -5 → "destructive"`; else `"secondary"`. -/
def priceChangeBadgeSeverity (pct : ℚ) : String :=
  if pct > 5 then "success"
  else if pct > 0 then "warning"
  else if pct < -5 then "destructive"
  else "secondary"

/-- One market row of the API payload (spec §3, received verbatim). -/
structure MarketRow where
  symbol : String
  mark_price : ℚ
  funding_rate : ℚ
  open_interest : ℚ
  day_volume : ℚ
  price_change_24h : ℚ
  premium : ℚ
deriving DecidableEq, Repr

/-- The optional `highest_funding_rate` summary of the payload. -/
structure HighestFunding where
  symbol : String
  funding_rate : ℚ
deriving DecidableEq, Repr

/-- The full `GET /api/funding-arbitrage` response body.  `error` and
`highest_funding_rate` may be absent; `markets` is optional so that the
component's `data?.markets?` optional chaining is meaningful. -/
structure DashboardSnapshot where
  success : Bool
  error : Option String
  total_markets : ℤ
  filtered_markets : ℤ
  highest_funding_rate : Option HighestFunding
  markets : Option (List MarketRow)
deriving DecidableEq, Repr

/-- The component's local state: the five `useState` hooks.  `lastUpdated`
is a timestamp (`new Date()` at the moment of the successful fetch). -/
structure ViewState where
  data : Option DashboardSnapshot
  loading : Bool
  error : Option String
  lastUpdated : Option ℕ
  autoRefresh : Bool
deriving DecidableEq, Repr

/-- The initial hook values: `useState(null)`, `useState(true)`,
`useState(null)`, `useState(null)`, `useState(true)`. -/
def initState : ViewState :=
  { data := none, loading := true, error := none,
    lastUpdated := none, autoRefresh := true }

/-- JS `a || b` on an optional string `a` (absent and `""` are falsy). -/
def jsOr : Option String → String → String
  | none, b => b
  | some a, b => if a = "" then b else a

/-- Outcome of the awaited GET inside `fetchData`: either a parsed response
body, or a thrown error carrying `err.response?.data?.detail` and
`err.message` (either possibly absent). -/
inductive FetchOutcome where
  | ok (payload : DashboardSnapshot)
  | thrown (detail : Option String) (message : Option String)
deriving DecidableEq, Repr

/-- One whole run of `fetchData` as a state transition.  `now` is the value
of `new Date()` if taken.  Mirrors the source order: `setLoading(true);
setError(null)`, then the branch on the outcome, then `setLoading(false)`
in the `finally` block. -/
def fetchData (s : ViewState) (outcome : FetchOutcome) (now : ℕ) : ViewState :=
  let s1 : ViewState := { s with loading := true, error := none }
  let s2 : ViewState :=
    match outcome with
    | .ok payload =>
        if payload.success then
          { s1 with data := some payload, lastUpdated := some now }
        else
          { s1 with error := some (jsOr payload.error ("Failed to fetch data")) }
    | .thrown detail message =>
        { s1 with error := some (jsOr detail (jsOr message ("Failed to fetch data"))) }
  { s2 with loading := false }

/-- The operations that mutate ViewState after mount: a complete `fetchData`
run (periodic, manual, or retry — all call the same function) and the
auto-refresh toggle button. -/
inductive Op where
  | fetch (outcome : FetchOutcome) (now : ℕ)
  | toggleAutoRefresh
deriving DecidableEq, Repr

/-- Apply one operation to the view state. -/
def step (s : ViewState) : Op → ViewState
  | .fetch outcome now => fetchData s outcome now
  | .toggleAutoRefresh => { s with autoRefresh := !s.autoRefresh }

/-- Apply a sequence of operations. -/
def run (s : ViewState) (ops : List Op) : ViewState := ops.foldl step s

/-- Whether an operation is a fetch whose response arrived with
`success: true` (the only operation that writes `data`). -/
def isSuccessFetch : Op → Bool
  | .fetch (.ok payload) _ => payload.success
  | _ => false

/-- What the `<TableBody>` holds: either the mapped market rows or the
single "No markets found" placeholder row. -/
inductive TableBody where
  | rows (rs : List MarketRow)
  | placeholder
deriving DecidableEq, Repr

/-- `{data?.markets?.map(...) || placeholderRow}`: the optional chain yields
`undefined` (falsy) when `data` or `data.markets` is absent, and otherwise an
array — which in JS is truthy even when empty, so `.map` of an empty
`markets` list short-circuits the `||` and the placeholder is skipped. -/
def renderTableBody (data : Option DashboardSnapshot) : TableBody :=
  match data with
  | none => .placeholder
  | some d =>
      match d.markets with
      | none => .placeholder
      | some ms => .rows ms

/-- The three top-level screens the component can return. -/
inductive Screen where
  | loadingScreen
  | errorScreen (msg : String)
  | dashboard (body : TableBody)
deriving DecidableEq, Repr

/-- JS truthiness of the `error` state value (string or null). -/
def strTruthy : Option String → Bool
  | none => false
  | some s => s ≠ ""

/-- The component's top-level render: `if (loading && !data) return loading
screen; if (error) return error screen; return dashboard`. -/
def renderScreen (s : ViewState) : Screen :=
  if s.loading && s.data.isNone then .loadingScreen
  else if strTruthy s.error then .errorScreen ((s.error).getD "")
  else .dashboard (renderTableBody s.data)

/-- Event-loop model of the `useEffect(..., [autoRefresh])` scheduler.
`timers` are the ids of the live `setInterval` timers (a list: nothing in
the timer API itself prevents several from coexisting), `effectCleanup` is
the interval id the current effect run's cleanup closure would clear
(`none` when the effect body hit the `if (!autoRefresh) return` early exit,
which installs no cleanup), `fires` logs the ids of timers whose 30-second
callback invoked `fetchData`. -/
structure SchedulerState where
  autoRefresh : Bool
  timers : List ℕ
  effectCleanup : Option ℕ
  nextId : ℕ
  fires : List ℕ
deriving DecidableEq, Repr

/-- The effect body: `if (!autoRefresh) return; const interval =
setInterval(fetchData, 30000); return () => clearInterval(interval)`. -/
def runEffect (s : SchedulerState) : SchedulerState :=
  if s.autoRefresh then
    { s with timers := s.timers ++ [s.nextId],
             effectCleanup := some s.nextId,
             nextId := s.nextId + 1 }
  else
    { s with effectCleanup := none }

/-- Run the previous effect's cleanup, if one was installed:
`clearInterval(interval)` removes that timer. -/
def runCleanup (s : SchedulerState) : SchedulerState :=
  match s.effectCleanup with
  | some id => { s with timers := s.timers.filter (· ≠ id), effectCleanup := none }
  | none => s

/-- `setAutoRefresh(!autoRefresh)`: React flips the state, runs the previous
effect's cleanup, then re-runs the effect body with the new value. -/
def toggleRefresh (s : SchedulerState) : SchedulerState :=
  runEffect (runCleanup { s with autoRefresh := !s.autoRefresh })

/-- A pending 30-second boundary of timer `id`: the callback runs (and
fetches) only if that interval is still live. -/
def tick (s : SchedulerState) (id : ℕ) : SchedulerState :=
  if id ∈ s.timers then { s with fires := s.fires ++ [id] } else s

/-- Component mount: `autoRefresh` starts `true` and the effect runs once. -/
def mount : SchedulerState :=
  runEffect { autoRefresh := true, timers := [], effectCleanup := none,
              nextId := 0, fires := [] }

/-- The events that can reach the scheduler after mount. -/
inductive SchedEvent where
  | toggle
  | tickAt (id : ℕ)
deriving DecidableEq, Repr

/-- Apply one scheduler event. -/
def schedStep (s : SchedulerState) : SchedEvent → SchedulerState
  | .toggle => toggleRefresh s
  | .tickAt id => tick s id

/-- Apply a sequence of scheduler events. -/
def schedRun (s : SchedulerState) (evs : List SchedEvent) : SchedulerState :=
  evs.foldl schedStep s

/-- The timers the component keeps live coincide with the one its current
effect cleanup would clear. -/
def SchedInv (s : SchedulerState) : Prop :=
  s.timers = (s.effectCleanup).elim [] (fun id => [id])

/-- Last character of a rendered string ("ends in c" ⇔ `lastChar = some c`). -/
def lastChar (s : String) : Option Char := s.data.getLast?

/-- First character of a rendered string. -/
def firstChar (s : String) : Option Char := s.data.head?

/-- A well-formed successful payload whose `markets` field is present and
empty — the scenario of spec §8's "No markets found" test. -/
def emptyMarketsSnap : DashboardSnapshot :=
  { success := true, error := none, total_markets := 120, filtered_markets := 0,
    highest_funding_rate := none, markets := some [] }

/-- A sample successful payload with one market row. -/
def sampleSnap : DashboardSnapshot :=
  { success := true, error := none, total_markets := 120, filtered_markets := 1,
    highest_funding_rate := some { symbol := "BTC", funding_rate := 0.0006 },
    markets := some [{ symbol := "BTC", mark_price := 50000, funding_rate := 0.0006,
                       open_interest := 60000000, day_volume := 120000000,
                       price_change_24h := 2.5, premium := 0.0001 }] }

/-- A view state that already holds a snapshot. -/
def loadedState : ViewState := { initState with data := some sampleSnap }

/-! ### Helper lemmas -/

theorem digitChar_mem_decimalDigits (d : ℕ) : digitChar d ∈ decimalDigits := by
  unfold digitChar decimalDigits
  rcases d with _ | _ | _ | _ | _ | _ | _ | _ | _ | d <;> simp

theorem natDigitsAux_ne_nil (n fuel : ℕ) : natDigitsAux n (fuel + 1) ≠ [] := by
  unfold natDigitsAux
  split <;> simp

theorem mem_natDigitsAux {c : Char} :
    ∀ (fuel n : ℕ), c ∈ natDigitsAux n fuel → c ∈ decimalDigits := by
  intro fuel
  induction fuel with
  | zero => intro n hc; simp [natDigitsAux] at hc
  | succ fuel ih =>
      intro n hc
      unfold natDigitsAux at hc
      split at hc
      · rw [List.mem_singleton] at hc
        exact hc ▸ digitChar_mem_decimalDigits n
      · rcases List.mem_append.mp hc with h | h
        · exact ih _ h
        · rw [List.mem_singleton] at h
          exact h ▸ digitChar_mem_decimalDigits (n % 10)

theorem natDigits_ne_nil (n : ℕ) : natDigits n ≠ [] := natDigitsAux_ne_nil n n

theorem mem_natDigits {c : Char} {n : ℕ} (h : c ∈ natDigits n) : c ∈ decimalDigits :=
  mem_natDigitsAux _ _ h

theorem mem_of_getLast?_eq {α : Type} {l : List α} {c : α}
    (h : l.getLast? = some c) : c ∈ l := by
  obtain ⟨hne, rfl⟩ := List.mem_getLast?_eq_getLast h
  exact List.getLast_mem hne

theorem getLast?_natDigits (n : ℕ) :
    ∃ c, (natDigits n).getLast? = some c ∧ c ∈ decimalDigits := by
  have h := natDigits_ne_nil n
  refine ⟨(natDigits n).getLast h, List.getLast?_eq_getLast_of_ne_nil h, ?_⟩
  exact mem_natDigits (List.getLast_mem h)

theorem head?_natDigits (n : ℕ) :
    ∃ c, (natDigits n).head? = some c ∧ c ∈ decimalDigits := by
  have h := natDigits_ne_nil n
  cases hnd : natDigits n with
  | nil => exact absurd hnd h
  | cons a l =>
      exact ⟨a, rfl, mem_natDigits (hnd ▸ List.mem_cons_self a l)⟩

theorem padZeros_ne_nil {d : ℕ} {l : List Char} (h : l ≠ []) : padZeros d l ≠ [] := by
  simp [padZeros, h]

theorem getLast?_padZeros (d : ℕ) {l : List Char} (h : l ≠ []) :
    (padZeros d l).getLast? = l.getLast? :=
  List.getLast?_append_of_ne_nil _ h

theorem fixedDigits_ne_nil (n d : ℕ) : fixedDigits n d ≠ [] := by
  unfold fixedDigits
  split
  · exact natDigits_ne_nil n
  · simp

theorem getLast?_fixedDigits (n d : ℕ) :
    ∃ c, (fixedDigits n d).getLast? = some c ∧ c ∈ decimalDigits := by
  unfold fixedDigits
  split
  · exact getLast?_natDigits n
  · obtain ⟨c, hc, hmem⟩ := getLast?_natDigits (n % 10 ^ d)
    refine ⟨c, ?_, hmem⟩
    have hpz : padZeros d (natDigits (n % 10 ^ d)) ≠ [] :=
      padZeros_ne_nil (natDigits_ne_nil _)
    rw [show natDigits (n / 10 ^ d) ++ '.' :: padZeros d (natDigits (n % 10 ^ d))
          = (natDigits (n / 10 ^ d) ++ ['.']) ++ padZeros d (natDigits (n % 10 ^ d)) by
        simp]
    rw [List.getLast?_append_of_ne_nil _ hpz, getLast?_padZeros d (natDigits_ne_nil _), hc]

theorem toFixedL_ne_nil (q : ℚ) (d : ℕ) : toFixedL q d ≠ [] := by
  unfold toFixedL
  split <;> simp [fixedDigits_ne_nil]

theorem getLast?_toFixedL (q : ℚ) (d : ℕ) :
    ∃ c, (toFixedL q d).getLast? = some c ∧ c ∈ decimalDigits := by
  obtain ⟨c, hc, hmem⟩ := getLast?_fixedDigits (roundHalfUp (|q| * 10 ^ d)) d
  refine ⟨c, ?_, hmem⟩
  unfold toFixedL
  rw [List.getLast?_append_of_ne_nil _ (fixedDigits_ne_nil _ _), hc]

theorem head?_toFixedL (q : ℚ) (d : ℕ) :
    ∃ c, (toFixedL q d).head? = some c ∧ (c = '-' ∨ c ∈ decimalDigits) := by
  unfold toFixedL
  split
  · exact ⟨'-', rfl, Or.inl rfl⟩
  · rw [List.nil_append]
    unfold fixedDigits
    split
    · obtain ⟨c, hc, hm⟩ := head?_natDigits (roundHalfUp (|q| * 10 ^ d))
      exact ⟨c, hc, Or.inr hm⟩
    · obtain ⟨c, hc, hm⟩ := head?_natDigits (roundHalfUp (|q| * 10 ^ d) / 10 ^ d)
      refine ⟨c, ?_, Or.inr hm⟩
      rw [List.head?_append_of_ne_nil _ (natDigits_ne_nil _), hc]

theorem lastChar_append_single (s : String) (c : Char) :
    lastChar (s ++ ⟨[c]⟩) = some c := by
  have : (s ++ ⟨[c]⟩).data = s.data ++ [c] := String.data_append s ⟨[c]⟩
  rw [lastChar, this, List.getLast?_append_of_ne_nil _ (by simp)]
  rfl

theorem jsOr_ne_empty (a : Option String) {b : String} (hb : b ≠ "") :
    jsOr a b ≠ "" := by
  cases a with
  | none => exact hb
  | some s =>
      simp only [jsOr]
      split
      · exact hb
      · assumption

/-! ### Claim theorems -/

/-- Claim C2: on a fetch whose response envelope has `success = true`, the
resulting view state holds exactly the received payload in `data`, has
`error` cleared, `loading` false, and `lastUpdated` stamped with a time no
earlier than the start of the fetch. -/
theorem fetchData_success_updates (s : ViewState) (payload : DashboardSnapshot)
    (start now : ℕ) (hsucc : payload.success = true) (hle : start ≤ now) :
    (fetchData s (.ok payload) now).data = some payload
    ∧ (fetchData s (.ok payload) now).error = none
    ∧ (fetchData s (.ok payload) now).loading = false
    ∧ ∃ t, (fetchData s (.ok payload) now).lastUpdated = some t ∧ start ≤ t := by
  refine ⟨?_, ?_, ?_, ⟨now, ?_, hle⟩⟩ <;> simp [fetchData, hsucc]

/-- Witness for C2 at a concrete payload and concrete times 3 ≤ 5. -/
theorem fetchData_success_updates_witness :
    sampleSnap.success = true ∧ (3 : ℕ) ≤ 5
    ∧ ((fetchData initState (.ok sampleSnap) 5).data = some sampleSnap
       ∧ (fetchData initState (.ok sampleSnap) 5).error = none
       ∧ (fetchData initState (.ok sampleSnap) 5).loading = false
       ∧ ∃ t, (fetchData initState (.ok sampleSnap) 5).lastUpdated = some t ∧ 3 ≤ t) :=
  ⟨rfl, by norm_num, fetchData_success_updates initState sampleSnap 3 5 rfl (by norm_num)⟩

/-- Claim C3: a fetch that throws leaves the prior `data` untouched, sets
`error` to a non-empty string, and clears `loading`. -/
theorem fetchData_failure_preserves_data (s : ViewState)
    (detail message : Option String) (now : ℕ) :
    (fetchData s (.thrown detail message) now).data = s.data
    ∧ (fetchData s (.thrown detail message) now).loading = false
    ∧ ∃ e, (fetchData s (.thrown detail message) now).error = some e ∧ e ≠ "" := by
  refine ⟨by simp [fetchData], by simp [fetchData],
    ⟨jsOr detail (jsOr message ("Failed to fetch data")), by simp [fetchData],
      jsOr_ne_empty _ (jsOr_ne_empty _ (by decide))⟩⟩

/-- Claim C4: the funding badge variant is the spec's first-match-wins
threshold ladder, and at the boundaries `0.0005` yields `"warning"` (strict
inequality required for `"success"`) and `0` yields `"secondary"`. -/
theorem fundingBadge_ladder (r : ℚ) :
    getFundingBadgeVariant r = fundingBadgeSeverity r
    ∧ getFundingBadgeVariant 0.0005 = "warning"
    ∧ getFundingBadgeVariant 0 = "secondary" := by
  refine ⟨rfl, ?_, ?_⟩ <;> norm_num [getFundingBadgeVariant]

/-- Claim C6: `formatPercent` multiplies by 100, renders with the given
fixed number of decimals and appends `"%"`; in particular
`formatPercent 0.0005` (JS default decimals 4) is `"0.0500%"` and
`formatPercent (-0.0001) 2` is `"-0.01%"`. -/
theorem formatPercent_times_100 (n : ℚ) (d : ℕ) :
    formatPercent n d = toFixed (n * 100) d ++ "%"
    ∧ formatPercent 0.0005 4 = "0.0500%"
    ∧ formatPercent (-0.0001) 2 = "-0.01%" := by
  refine ⟨rfl, ?_, ?_⟩ <;>
    · norm_num [formatPercent, toFixed, toFixedL, roundHalfUp, abs_of_nonneg]
      decide

/-- Claim C7: the price-change badge variant is the spec's first-match-wins
ladder, with `6 ↦ "success"`, `1 ↦ "warning"`, `0 ↦ "secondary"`,
`-6 ↦ "destructive"`. -/
theorem priceChangeBadge_ladder (p : ℚ) :
    getPriceChangeBadgeVariant p = priceChangeBadgeSeverity p
    ∧ getPriceChangeBadgeVariant 6 = "success"
    ∧ getPriceChangeBadgeVariant 1 = "warning"
    ∧ getPriceChangeBadgeVariant 0 = "secondary"
    ∧ getPriceChangeBadgeVariant (-6) = "destructive" := by
  refine ⟨rfl, ?_, ?_, ?_, ?_⟩ <;> norm_num [getPriceChangeBadgeVariant]

/-- lastChar of an appended string is that of the right part when the right
part is non-empty. -/
theorem lastChar_append (s t : String) (h : t.data ≠ []) :
    lastChar (s ++ t) = lastChar t := by
  rw [lastChar, String.data_append, List.getLast?_append_of_ne_nil _ h]
  rfl

/-- A character of the decimal-digit set is not a tier-suffix letter. -/
theorem decimalDigit_not_suffix {c : Char} (h : c ∈ decimalDigits) :
    c ≠ 'B' ∧ c ≠ 'M' ∧ c ≠ 'K' := by
  fin_cases h <;> decide

/-- Claim C1 (code evaluation at the failing input): after a successful
fetch of a payload with `success: true` and `markets: []`, the screen is
the dashboard (not the error screen) but the table body is the mapped —
empty — row list, not the "No markets found" placeholder row: the JSX
`data?.markets?.map(...) || placeholder` never takes the placeholder branch
on an empty array, because an empty array is truthy. -/
theorem emptyMarkets_renders_empty_rows :
    renderScreen (fetchData initState (.ok emptyMarketsSnap) 0)
      = Screen.dashboard (TableBody.rows [])
    ∧ TableBody.rows ([] : List MarketRow) ≠ TableBody.placeholder := by
  exact ⟨rfl, by simp⟩

/-- Claim C5: `formatNumber` (JS default decimals = 2) ends in `'B'` for
`n ≥ 1e9`, `'M'` for `1e6 ≤ n < 1e9`, `'K'` for `1e3 ≤ n < 1e6`, and in a
plain digit (no suffix letter) for `n < 1e3`; at the tier boundary
`formatNumber 1000000 = "1.00M"`. -/
theorem formatNumber_suffix_tiers (n : ℚ) :
    (1000000000 ≤ n → lastChar (formatNumber n 2) = some 'B')
    ∧ (1000000 ≤ n → n < 1000000000 → lastChar (formatNumber n 2) = some 'M')
    ∧ (1000 ≤ n → n < 1000000 → lastChar (formatNumber n 2) = some 'K')
    ∧ (n < 1000 → lastChar (formatNumber n 2) ≠ some 'B'
        ∧ lastChar (formatNumber n 2) ≠ some 'M'
        ∧ lastChar (formatNumber n 2) ≠ some 'K')
    ∧ formatNumber 1000000 2 = "1.00M" := by
  refine ⟨?_, ?_, ?_, ?_, ?_⟩
  · intro h
    rw [formatNumber, if_pos (show n ≥ 1000000000 from h),
      lastChar_append _ _ (by decide)]
    decide
  · intro h1 h2
    rw [formatNumber, if_neg (show ¬ n ≥ 1000000000 by exact not_le.mpr h2),
      if_pos (show n ≥ 1000000 from h1), lastChar_append _ _ (by decide)]
    decide
  · intro h1 h2
    rw [formatNumber, if_neg (show ¬ n ≥ 1000000000 by push_neg; linarith),
      if_neg (show ¬ n ≥ 1000000 by exact not_le.mpr h2),
      if_pos (show n ≥ 1000 from h1), lastChar_append _ _ (by decide)]
    decide
  · intro h
    rw [formatNumber, if_neg (show ¬ n ≥ 1000000000 by push_neg; linarith),
      if_neg (show ¬ n ≥ 1000000 by push_neg; linarith),
      if_neg (show ¬ n ≥ 1000 by exact not_le.mpr h)]
    obtain ⟨c, hc, hmem⟩ := getLast?_toFixedL n 2
    have hlast : lastChar (toFixed n 2) = some c := hc
    obtain ⟨hB, hM, hK⟩ := decimalDigit_not_suffix hmem
    refine ⟨?_, ?_, ?_⟩ <;> rw [hlast] <;> intro heq <;>
      simp only [Option.some_inj] at heq
    · exact hB heq
    · exact hM heq
    · exact hK heq
  · norm_num [formatNumber, toFixed, toFixedL, roundHalfUp]
    decide

/-- Witness for C5 at the concrete inputs 2e9 (B tier) and 500 (no suffix). -/
theorem formatNumber_suffix_tiers_witness :
    (1000000000 : ℚ) ≤ 2000000000
    ∧ lastChar (formatNumber 2000000000 2) = some 'B'
    ∧ (500 : ℚ) < 1000
    ∧ lastChar (formatNumber 500 2) ≠ some 'B' :=
  ⟨by norm_num, (formatNumber_suffix_tiers 2000000000).1 (by norm_num),
   by norm_num, ((formatNumber_suffix_tiers 500).2.2.2.1 (by norm_num)).1⟩

/-- Claim C10: the 24h-change table cell starts with `'+'` exactly when the
percentage is strictly positive, and its body is the raw value rendered
with `toFixed(2)` followed by `"%"` — not `formatPercent` (no extra factor
of 100), as the contrast at 5 shows. -/
theorem priceChange_cell_plus_sign (q : ℚ) :
    (firstChar (priceChangeCellText q) = some '+' ↔ 0 < q)
    ∧ (priceChangeCellText q).data
        = (if 0 < q then ['+'] else []) ++ (toFixedL q 2 ++ ['%'])
    ∧ priceChangeCellText 5 = "+5.00%"
    ∧ formatPercent 5 2 = "500.00%" := by
  have hdata : (priceChangeCellText q).data
      = (if 0 < q then ['+'] else []) ++ (toFixedL q 2 ++ ['%']) := by
    unfold priceChangeCellText
    rw [String.data_append, String.data_append, List.append_assoc]
    congr 1
    · split <;> decide
  refine ⟨?_, hdata, ?_, ?_⟩
  · constructor
    · intro h
      by_contra hq
      rw [firstChar, hdata, if_neg hq, List.nil_append,
        List.head?_append_of_ne_nil _ (toFixedL_ne_nil q 2)] at h
      obtain ⟨c, hc, hcase⟩ := head?_toFixedL q 2
      rw [hc, Option.some_inj] at h
      rcases hcase with rfl | hm
      · exact absurd h (by decide)
      · subst h
        exact absurd hm (by decide)
    · intro h
      rw [firstChar, hdata, if_pos h]
      rfl
  · norm_num [priceChangeCellText, toFixed, toFixedL, roundHalfUp, abs_of_nonneg]
    decide
  · norm_num [formatPercent, toFixed, toFixedL, roundHalfUp, abs_of_nonneg]
    decide

/-- Witness for C10 at the concrete input 5. -/
theorem priceChange_cell_plus_sign_witness :
    (0 : ℚ) < 5 ∧ firstChar (priceChangeCellText 5) = some '+' :=
  ⟨by norm_num, (priceChange_cell_plus_sign 5).1.mpr (by norm_num)⟩

/-- Every operation either leaves `data` unchanged or replaces it wholesale
with the payload of a `success: true` fetch. -/
theorem step_data_cases (s : ViewState) (op : Op) :
    (step s op).data = s.data
    ∨ ∃ p m, op = Op.fetch (FetchOutcome.ok p) m ∧ p.success = true
        ∧ (step s op).data = some p := by
  cases op with
  | toggleAutoRefresh => left; rfl
  | fetch outcome now =>
      cases outcome with
      | thrown d m => left; simp [step, fetchData]
      | ok p =>
          by_cases hp : p.success
          · right; exact ⟨p, now, rfl, hp, by simp [step, fetchData, hp]⟩
          · left; simp [step, fetchData, hp]

/-- An operation that is not a successful fetch leaves `data` unchanged. -/
theorem step_data_of_not_success {s : ViewState} {op : Op}
    (h : isSuccessFetch op = false) : (step s op).data = s.data := by
  rcases step_data_cases s op with h1 | ⟨p, m, rfl, hp, _⟩
  · exact h1
  · simp [isSuccessFetch, hp] at h

/-- Without a successful fetch, `data` stays `none`. -/
theorem run_data_none {ops : List Op} (h : ∀ o ∈ ops, isSuccessFetch o = false) :
    ∀ s : ViewState, s.data = none → (run s ops).data = none := by
  induction ops with
  | nil => intro s hs; exact hs
  | cons o ops ih =>
      intro s hs
      have hstep : (step s o).data = none :=
        (step_data_of_not_success (h o (List.mem_cons_self o ops))).trans hs
      exact ih (fun o' ho' => h o' (List.mem_cons_of_mem o ho')) _ hstep

/-- Once `data` holds a snapshot, no operation sequence resets it to none. -/
theorem run_data_ne_none {ops : List Op} :
    ∀ s : ViewState, s.data ≠ none → (run s ops).data ≠ none := by
  induction ops with
  | nil => intro s hs; exact hs
  | cons o ops ih =>
      intro s hs
      refine ih _ ?_
      rcases step_data_cases s o with h1 | ⟨p, m, _, _, h2⟩
      · rw [h1]; exact hs
      · rw [h2]; simp

/-- Claim C9: the `data` life-cycle invariant — `none` until the first
fetch whose envelope says `success: true`; never reset to `none`
afterwards; every change of `data` is a wholesale replacement with a full
received snapshot (no partial update is possible). -/
theorem data_atomic_replace_invariant (ops : List Op) (s : ViewState) (op : Op) :
    ((∀ o ∈ ops, isSuccessFetch o = false) → (run initState ops).data = none)
    ∧ (s.data ≠ none → (run s ops).data ≠ none)
    ∧ ((step s op).data = s.data
        ∨ ∃ p m, op = Op.fetch (FetchOutcome.ok p) m ∧ p.success = true
            ∧ (step s op).data = some p) :=
  ⟨fun h => run_data_none h initState rfl,
   fun h => run_data_ne_none s h,
   step_data_cases s op⟩

/-- Witness for C9: a toggle (no successful fetch) keeps `data` at `none`
from the initial state, and keeps it non-`none` from a loaded state. -/
theorem data_atomic_replace_invariant_witness :
    (∀ o ∈ ([Op.toggleAutoRefresh] : List Op), isSuccessFetch o = false)
    ∧ (run initState [Op.toggleAutoRefresh]).data = none
    ∧ loadedState.data ≠ none
    ∧ (run loadedState [Op.toggleAutoRefresh]).data ≠ none
    ∧ ((step loadedState Op.toggleAutoRefresh).data = loadedState.data
        ∨ ∃ p m, Op.toggleAutoRefresh = Op.fetch (FetchOutcome.ok p) m
            ∧ p.success = true
            ∧ (step loadedState Op.toggleAutoRefresh).data = some p) := by
  have h1 : ∀ o ∈ ([Op.toggleAutoRefresh] : List Op), isSuccessFetch o = false := by
    intro o ho
    rw [List.mem_singleton] at ho
    subst ho
    rfl
  have h2 : loadedState.data ≠ none := by simp [loadedState]
  exact ⟨h1,
    (data_atomic_replace_invariant [Op.toggleAutoRefresh] loadedState
      Op.toggleAutoRefresh).1 h1,
    h2,
    (data_atomic_replace_invariant [Op.toggleAutoRefresh] loadedState
      Op.toggleAutoRefresh).2.1 h2,
    (data_atomic_replace_invariant [Op.toggleAutoRefresh] loadedState
      Op.toggleAutoRefresh).2.2⟩

theorem schedInv_mount : SchedInv mount := rfl

theorem schedInv_step {s : SchedulerState} (h : SchedInv s) (e : SchedEvent) :
    SchedInv (schedStep s e) := by
  cases e with
  | tickAt id =>
      simp only [schedStep, tick]
      split
      · exact h
      · exact h
  | toggle =>
      simp only [schedStep, toggleRefresh, runCleanup, runEffect]
      rw [SchedInv] at h
      rcases hec : s.effectCleanup with _ | id <;>
        rw [hec] at h <;> simp only [Option.elim] at h <;>
        split <;> simp [SchedInv, h]

theorem schedInv_run (evs : List SchedEvent) : SchedInv (schedRun mount evs) := by
  suffices hgen : ∀ s : SchedulerState, SchedInv s → SchedInv (schedRun s evs) from
    hgen mount schedInv_mount
  induction evs with
  | nil => intro s hs; exact hs
  | cons e evs ih => intro s hs; exact ih _ (schedInv_step hs e)

theorem schedInv_timers_length {s : SchedulerState} (h : SchedInv s) :
    s.timers.length ≤ 1 := by
  rw [SchedInv] at h
  rw [h]
  rcases s.effectCleanup with _ | id <;> simp

/-- Toggling the auto-refresh flag off clears the pending interval. -/
theorem toggle_off_clears {s : SchedulerState} (hInv : SchedInv s)
    (h : s.autoRefresh = true) : (toggleRefresh s).timers = [] := by
  rw [SchedInv] at hInv
  simp only [toggleRefresh, runCleanup, runEffect, h]
  rcases hec : s.effectCleanup with _ | id <;>
    rw [hec] at hInv <;> simp only [Option.elim] at hInv <;> simp [hInv]

/-- Claim C8: every reachable scheduler state has at most one live periodic
timer, and when `autoRefresh` is toggled from `true` to `false` the pending
interval is cancelled: no timer survives, so no 30-second boundary tick can
fire a scheduler-initiated fetch afterwards. -/
theorem autoRefresh_toggle_cancels_timer (evs : List SchedEvent) (id : ℕ)
    (h : (schedRun mount evs).autoRefresh = true) :
    (schedRun mount evs).timers.length ≤ 1
    ∧ (toggleRefresh (schedRun mount evs)).timers = []
    ∧ (tick (toggleRefresh (schedRun mount evs)) id).fires
        = (toggleRefresh (schedRun mount evs)).fires := by
  have hInv := schedInv_run evs
  have ht := toggle_off_clears hInv h
  refine ⟨schedInv_timers_length hInv, ht, ?_⟩
  rw [tick, ht]
  simp

/-- Witness for C8: right after mount, `autoRefresh` is true, one timer is
live, and a toggle leaves no timer so the would-be tick of timer 0 fires
nothing. -/
theorem autoRefresh_toggle_cancels_timer_witness :
    (schedRun mount []).autoRefresh = true
    ∧ ((schedRun mount []).timers.length ≤ 1
       ∧ (toggleRefresh (schedRun mount [])).timers = []
       ∧ (tick (toggleRefresh (schedRun mount [])) 0).fires
           = (toggleRefresh (schedRun mount [])).fires) :=
  ⟨rfl, autoRefresh_toggle_cancels_timer [] 0 rfl⟩

end FundingDashboard
